import Mathlib

/-!
Shallow embedding of the Golf Pick Em league core
(src/models.py, src/app.py, src/sync_api.py).

Database rows are Lean structures, SQLAlchemy queries over the
result and usage tables become functions over explicit lists,
Python ints are Int, nullable columns are Option.  Floats in the
payout table (sync_api.py) are modelled as exact rationals,
scaled by 10^5 so every table entry is an integer numerator.
-/

/-- Row of the tournament table: the columns that pick resolution reads
(models.py, class Tournament). -/
structure TournamentRow where
  id : Nat
  season_year : Int
  is_team_event : Bool
  deriving DecidableEq

/-- Row of the tournament_result table (models.py, class TournamentResult).
The earnings column is nullable, which resolve_pick guards against. -/
structure ResultRow where
  tournament_id : Nat
  player_id : Nat
  status : String
  earnings : Option Int
  rounds_completed : Int
  deriving DecidableEq

/-- Row of the pick table (models.py, class Pick). -/
structure PickRow where
  id : Nat
  user_id : Nat
  tournament_id : Nat
  primary_player_id : Nat
  backup_player_id : Nat
  active_player_id : Option Nat
  points_earned : Option Int
  primary_used : Bool
  backup_used : Bool
  deriving DecidableEq

/-- Row of the season_player_usage table (models.py, class SeasonPlayerUsage). -/
structure UsageRow where
  user_id : Nat
  player_id : Nat
  season_year : Int
  deriving DecidableEq

/-- TournamentResult.wd_before_round_2_complete (models.py lines 261-263):
status is wd and fewer than two rounds completed. -/
def wd_before_round_2_complete (r : ResultRow) : Bool :=
  r.status == "wd" && decide (r.rounds_completed < 2)

/-- The truthiness test Python applies to the optional backup result in
resolve_pick: backup_result and backup_result.status == wd and
backup_result.rounds_completed < 2. -/
def backupWdEarly : Option ResultRow → Bool
  | some b => b.status == "wd" && decide (b.rounds_completed < 2)
  | none => false

/-- TournamentResult.query.filter_by(tournament_id=..., player_id=...).first()
over an explicit list of result rows. -/
def findResult (results : List ResultRow) (tid pid : Nat) : Option ResultRow :=
  results.find? (fun r => r.tournament_id == tid && r.player_id == pid)

/-- Pick.resolve_pick (models.py lines 341-422).  The tournament argument is
the row the pick belongs to (self.tournament).  Raised ValueErrors become
Except.error with the message from the source; on success the function
returns the updated pick together with the SeasonPlayerUsage row that
db.session.add inserts for the active player. -/
def resolve_pick (t : TournamentRow) (results : List ResultRow) (p : PickRow) :
    Except String (PickRow × UsageRow) :=
  match findResult results p.tournament_id p.primary_player_id with
  | none => .error "Missing tournament result for primary player"
  | some primary_result =>
    -- Case 1: primary WD before R2, so the backup activates
    if primary_result.status == "wd" && decide (primary_result.rounds_completed < 2) then
      if backupWdEarly (findResult results p.tournament_id p.backup_player_id) then
        -- Both WD early: primary is used with 0 points, backup returns to pool
        .ok ({ p with active_player_id := some p.primary_player_id,
                      points_earned := some 0,
                      primary_used := true,
                      backup_used := false },
             ⟨p.user_id, p.primary_player_id, t.season_year⟩)
      else
        match findResult results p.tournament_id p.backup_player_id with
        | none => .error "Backup player missing result when required"
        | some backup_result =>
          match backup_result.earnings with
          | none => .error "Backup player missing result when required"
          | some e =>
            -- Team event (Zurich): divide by 2 with Python floor division
            .ok ({ p with active_player_id := some p.backup_player_id,
                          points_earned :=
                            some (if t.is_team_event then Int.fdiv e 2 else e),
                          primary_used := false,
                          backup_used := true },
                 ⟨p.user_id, p.backup_player_id, t.season_year⟩)
    -- Case 2: primary did not WD early (or did not WD at all)
    else
      match primary_result.earnings with
      | none => .error "Primary player missing result when required"
      | some e =>
        .ok ({ p with active_player_id := some p.primary_player_id,
                      points_earned :=
                        some (if t.is_team_event then Int.fdiv e 2 else e),
                      primary_used := true,
                      backup_used := false },
             ⟨p.user_id, p.primary_player_id, t.season_year⟩)

/-- Outcome of processing one pick inside process_tournament_results. -/
structure StepOut where
  usages : List UsageRow
  pick : PickRow
  processed : Bool
  deriving DecidableEq

/-- The SQLAlchemy delete predicate in process_tournament_results
(app.py lines 968-972): usage rows of this user, this season, naming the
primary or the backup player. -/
def usageDeleteHits (t : TournamentRow) (p : PickRow) (u : UsageRow) : Bool :=
  u.user_id == p.user_id && u.season_year == t.season_year &&
    (u.player_id == p.primary_player_id || u.player_id == p.backup_player_id)

/-- One iteration of the loop in process_tournament_results (app.py lines
966-988): inside a savepoint, delete the usage rows for this pick, then
resolve it.  On an exception the savepoint rolls back, so the usage table
and the pick are left as they were. -/
def stepPick (t : TournamentRow) (results : List ResultRow)
    (usages : List UsageRow) (p : PickRow) : StepOut :=
  let usages' := usages.filter (fun u => !usageDeleteHits t p u)
  match resolve_pick t results p with
  | .ok (p', u) => ⟨usages' ++ [u], p', true⟩
  | .error _ => ⟨usages, p, false⟩

/-- Return value of process_tournament_results, together with the final
database state it commits. -/
structure BatchOut where
  usages : List UsageRow
  picks : List PickRow
  processed : Nat
  skipped : List Nat
  deriving DecidableEq

/-- Loop body of process_tournament_results over the accumulator.  Note the
source appends to skipped only when resolve_pick returns a falsy value; the
method always returns a non-empty tuple (truthy), so on an exception the
pick id is logged but never appended, and skipped stays as it was. -/
def batchStep (t : TournamentRow) (results : List ResultRow)
    (acc : BatchOut) (p : PickRow) : BatchOut :=
  let s := stepPick t results acc.usages p
  if s.processed then
    ⟨s.usages, acc.picks ++ [s.pick], acc.processed + 1, acc.skipped⟩
  else
    ⟨s.usages, acc.picks ++ [s.pick], acc.processed, acc.skipped⟩

/-- process_tournament_results (app.py lines 959-991): resolve every pick of
the tournament independently, each inside its own savepoint. -/
def process_tournament_results (t : TournamentRow) (results : List ResultRow)
    (usages : List UsageRow) (picks : List PickRow) : BatchOut :=
  picks.foldl (batchStep t results) ⟨usages, [], 0, []⟩

/-- Run the batch N times over the same (unchanged) result rows, feeding the
committed usage table and pick rows back in. -/
def runBatchN (t : TournamentRow) (results : List ResultRow) :
    Nat → List UsageRow → List PickRow → List UsageRow × List PickRow
  | 0, us, ps => (us, ps)
  | n + 1, us, ps =>
    let b := process_tournament_results t results us ps
    runBatchN t results n b.usages b.picks

/-! ## Standings (User.calculate_total_points, models.py lines 69-76) -/

/-- The slice of a Pick row (joined with its tournament) that
User.calculate_total_points reads. -/
structure StandPick where
  season_year : Int
  tournament_status : String
  points_earned : Option Int
  deriving DecidableEq

/-- Python truthiness of the nullable points_earned column: None and 0 are
falsy, every other integer is truthy. -/
def pyTruthy : Option Int → Bool
  | none => false
  | some v => v != 0

/-- User.calculate_total_points: loop over all of the users picks, adding
points_earned whenever the tournament status is complete and points_earned
is truthy. -/
def calculate_total_points (picks : List StandPick) : Int :=
  picks.foldl
    (fun total p =>
      if p.tournament_status == "complete" && pyTruthy p.points_earned then
        total + p.points_earned.getD 0
      else total) 0

/-- Per-pick contribution in the amended standings statement: a resolved
pick of a complete tournament contributes its points, everything else 0. -/
def resolvedCompletePoints (p : StandPick) : Int :=
  if p.tournament_status = "complete" then p.points_earned.getD 0 else 0

/-- The total as the claim words it: only picks of the given season whose
tournament is complete and which have been resolved contribute.  This
definition follows the claim, to be compared with calculate_total_points. -/
def seasonTotalSpec (season : Int) (picks : List StandPick) : Int :=
  (picks.map (fun p =>
    if p.season_year = season ∧ p.tournament_status = "complete" ∧
        p.points_earned ≠ none then
      p.points_earned.getD 0
    else 0)).sum

/-! ## Tournament lifecycle clock
(Tournament.update_status_from_time, models.py lines 158-173).
Datetimes are modelled as integers on one common timeline; the timezone
localization in the source only ensures all compared values live on that
one timeline. -/

/-- The columns of the tournament table the lifecycle clock reads and the
status column it writes. -/
structure TournamentClock where
  start_date : Int
  end_date : Int
  pick_deadline : Option Int
  status : String
  deriving DecidableEq

/-- Tournament.update_status_from_time: once complete, the status is left
alone; otherwise it is derived from now against end, start and the
deadline (pick_deadline, falling back to start_date). -/
def update_status_from_time (t : TournamentClock) (now : Int) : TournamentClock :=
  if t.status ≠ "complete" then
    if t.end_date ≤ now then { t with status := "complete" }
    else if t.start_date ≤ now then { t with status := "active" }
    else if t.pick_deadline.getD t.start_date ≤ now then { t with status := "upcoming" }
    else t
  else t

/-- Forward order of the lifecycle phases: upcoming before active before
complete.  Unknown strings rank lowest. -/
def statusRank : String → Nat
  | "active" => 1
  | "complete" => 2
  | _ => 0

/-! ## Projected payout (calculate_projected_earnings, sync_api.py
lines 122-179).  The Python float percentages are modelled as exact
rationals; every table entry has four decimal digits, so all values are
integers once scaled by 10^5. -/

/-- PAYOUT_PERCENTAGES (sync_api.py lines 104-121), scaled by 10^5:
payoutNum pos = 10^5 * PAYOUT_PERCENTAGES[pos], with the dict .get
default 0 for positions outside 1-65. -/
def PAYOUT_TABLE : List (Int × Nat) :=
  [(1, 18000), (2, 10900), (3, 6900), (4, 4900), (5, 4100),
   (6, 3630), (7, 3380), (8, 3130), (9, 2930), (10, 2730),
   (11, 2530), (12, 2330), (13, 2130), (14, 1930), (15, 1830),
   (16, 1730), (17, 1630), (18, 1530), (19, 1430), (20, 1330),
   (21, 1230), (22, 1130), (23, 1050), (24, 970), (25, 890),
   (26, 810), (27, 780), (28, 750), (29, 720), (30, 690),
   (31, 660), (32, 630), (33, 600), (34, 570), (35, 550),
   (36, 520), (37, 500), (38, 480), (39, 460), (40, 440),
   (41, 420), (42, 400), (43, 380), (44, 360), (45, 340),
   (46, 320), (47, 300), (48, 280), (49, 270), (50, 260),
   (51, 250), (52, 250), (53, 240), (54, 240), (55, 240),
   (56, 230), (57, 230), (58, 230), (59, 230), (60, 230),
   (61, 220), (62, 220), (63, 220), (64, 220), (65, 220)]

/-- PAYOUT_PERCENTAGES dict lookup with .get default 0, scaled by 10^5:
payoutNum pos = 10^5 * PAYOUT_PERCENTAGES.get(pos, 0). -/
def payoutNum (pos : Int) : Nat :=
  (PAYOUT_TABLE.lookup pos).getD 0

/-- Python int() applied to a rational: truncation toward zero. -/
def pyInt (x : ℚ) : Int :=
  if 0 ≤ x then ⌊x⌋ else ⌈x⌉

/-- Python str.upper, over the underlying character list.  (The library
String.toUpper does not reduce inside the kernel, so the embedding works
on String.data directly; the position strings are ASCII.) -/
def pyUpper (s : String) : String :=
  ⟨s.data.map Char.toUpper⟩

/-- Does the string start with the tie marker T. -/
def startsWithT (s : String) : Bool :=
  match s.data with
  | c :: _ => c == 'T'
  | [] => false

/-- Python slicing s[1:]. -/
def pyDrop1 (s : String) : String :=
  ⟨s.data.drop 1⟩

/-- Decimal digits to a number; none when empty or any non-digit occurs. -/
def digitsToNat (cs : List Char) : Option Nat :=
  if cs.isEmpty then none
  else
    cs.foldl
      (fun acc c =>
        match acc with
        | none => none
        | some n =>
          if ('0' ≤ c ∧ c ≤ '9') then some (n * 10 + (c.toNat - 48))
          else none)
      (some 0)

/-- Python int() on a position string: an optional sign followed by
decimal digits, ValueError (none) otherwise. -/
def pyParseInt (s : String) : Option Int :=
  match s.data with
  | '-' :: rest => (digitsToNat rest).map (fun n => -(n : Int))
  | '+' :: rest => (digitsToNat rest).map (fun n => (n : Int))
  | cs => (digitsToNat cs).map (fun n => (n : Int))

/-- The position parse in calculate_projected_earnings: uppercase, strip a
leading T tie marker, then int(). -/
def parsePosition (position_str : String) : Option Int :=
  let position_upper := pyUpper position_str
  pyParseInt (if startsWithT position_upper then pyDrop1 position_upper
    else position_upper)

/-- Tie-group size: how many leaderboard entries share the exact same
(uppercased) position string; Python skips falsy (empty) entries. -/
def tieGroupSize (position_str : String) (all_positions : List String) : Nat :=
  all_positions.countP
    (fun pp => (pp != "") && (pyUpper pp == pyUpper position_str))

/-- Percentage added for one rank inside the tie loop of
calculate_projected_earnings: the table for pos <= 65 (with .get default
0), a linearly decaying extrapolation clamped at 0 for pos <= 80. -/
def loopPct (pos : Int) : ℚ :=
  if pos ≤ 65 then (payoutNum pos : ℚ) / 100000
  else if pos ≤ 80 then
    max 0 ((213 : ℚ) / 100000 - ((pos : ℚ) - 66) * 2 / 100000)
  else 0

/-- calculate_projected_earnings (sync_api.py lines 122-179). -/
def calculate_projected_earnings (position_str : String) (purse : Int)
    (all_positions : List String) : Int :=
  -- Handle non-paying positions
  if position_str == "" || pyUpper position_str == "CUT" ||
      pyUpper position_str == "WD" || pyUpper position_str == "DQ" ||
      pyUpper position_str == "-" then 0
  -- Handle missing purse
  else if purse ≤ 0 then 0
  else
    match parsePosition position_str with
    | none => 0
    | some base_position =>
      if base_position > 80 then 0
      else
        let tie_count :=
          let c := tieGroupSize position_str all_positions
          if c = 0 then 1 else c
        let total_percentage : ℚ :=
          (List.range tie_count).foldl
            (fun acc (i : Nat) => acc + loopPct (base_position + (i : Int))) 0
        let player_percentage : ℚ :=
          if 0 < tie_count then total_percentage / (tie_count : ℚ) else 0
        pyInt ((purse : ℚ) * player_percentage)

/-- The payout percentage for one rank, as the spec words it: the fixed
table for ranks 1-65, the linearly decaying extrapolation for ranks
66-80, zero elsewhere.  Spec-side definition, to be compared with the
loop of calculate_projected_earnings. -/
def payoutPctSpec (r : Int) : ℚ :=
  if 1 ≤ r ∧ r ≤ 65 then (payoutNum r : ℚ) / 100000
  else if 66 ≤ r ∧ r ≤ 80 then
    (213 : ℚ) / 100000 - ((r : ℚ) - 66) * 2 / 100000
  else 0

/-! ## Resolution lemmas -/

/-- Every successful resolve_pick only overwrites the four resolved fields
of the pick; ids and players are carried over. -/
theorem resolve_pick_shape (t : TournamentRow) (rs : List ResultRow)
    (p p' : PickRow) (u : UsageRow) (h : resolve_pick t rs p = .ok (p', u)) :
    p' = { p with active_player_id := p'.active_player_id,
                  points_earned := p'.points_earned,
                  primary_used := p'.primary_used,
                  backup_used := p'.backup_used } := by
  unfold resolve_pick at h
  repeat' split at h
  all_goals
    first
      | exact Except.noConfusion h
      | (simp only [Except.ok.injEq, Prod.mk.injEq] at h
         obtain ⟨rfl, rfl⟩ := h
         simp)

/-- resolve_pick never reads the four resolved fields, so overwriting them
beforehand does not change its outcome. -/
theorem resolve_pick_set_resolved (t : TournamentRow) (rs : List ResultRow)
    (p : PickRow) (a : Option Nat) (e : Option Int) (x y : Bool) :
    resolve_pick t rs { p with active_player_id := a, points_earned := e,
                               primary_used := x, backup_used := y } =
      resolve_pick t rs p := rfl

/-- The usage row a successful resolve_pick inserts names this user, this
season and one of the two picked players, so the delete of
process_tournament_results hits it. -/
theorem resolve_pick_usage_hits (t : TournamentRow) (rs : List ResultRow)
    (p p' : PickRow) (u : UsageRow) (h : resolve_pick t rs p = .ok (p', u)) :
    usageDeleteHits t p u = true := by
  unfold resolve_pick at h
  repeat' split at h
  all_goals
    first
      | exact Except.noConfusion h
      | (simp only [Except.ok.injEq, Prod.mk.injEq] at h
         obtain ⟨rfl, rfl⟩ := h
         simp [usageDeleteHits])

/-- Re-resolving an already resolved pick against unchanged results gives
the very same outcome. -/
theorem resolve_pick_idem (t : TournamentRow) (rs : List ResultRow)
    (p p' : PickRow) (u : UsageRow) (h : resolve_pick t rs p = .ok (p', u)) :
    resolve_pick t rs p' = .ok (p', u) := by
  have hs := resolve_pick_shape t rs p p' u h
  have hm := resolve_pick_set_resolved t rs p p'.active_player_id
    p'.points_earned p'.primary_used p'.backup_used
  rw [← hs] at hm
  exact hm.trans h

/-- Claim C3: if both the primary and the backup result are withdrawals
with fewer than two completed rounds, resolution keeps the primary active
with 0 points, marks the primary used and leaves the backup unused (the
usage row inserted names the primary). -/
theorem early_double_withdrawal (t : TournamentRow) (rs : List ResultRow)
    (p : PickRow) (rp rb : ResultRow)
    (hp : findResult rs p.tournament_id p.primary_player_id = some rp)
    (hb : findResult rs p.tournament_id p.backup_player_id = some rb)
    (hps : rp.status = "wd") (hpr : rp.rounds_completed < 2)
    (hbs : rb.status = "wd") (hbr : rb.rounds_completed < 2) :
    resolve_pick t rs p =
      .ok ({ p with active_player_id := some p.primary_player_id,
                    points_earned := some 0,
                    primary_used := true,
                    backup_used := false },
           ⟨p.user_id, p.primary_player_id, t.season_year⟩) := by
  simp [resolve_pick, hp, hb, backupWdEarly, hps, hbs, hpr, hbr]

/-- Witness for C3 at a concrete pick: primary withdrew after one round,
backup withdrew after zero rounds. -/
theorem early_double_withdrawal_witness :
    resolve_pick ⟨1, 2026, false⟩
        [⟨1, 10, "wd", some 0, 1⟩, ⟨1, 11, "wd", some 0, 0⟩]
        ⟨5, 7, 1, 10, 11, none, none, false, false⟩ =
      .ok (⟨5, 7, 1, 10, 11, some 10, some 0, true, false⟩, ⟨7, 10, 2026⟩) :=
  early_double_withdrawal ⟨1, 2026, false⟩
    [⟨1, 10, "wd", some 0, 1⟩, ⟨1, 11, "wd", some 0, 0⟩]
    ⟨5, 7, 1, 10, 11, none, none, false, false⟩
    ⟨1, 10, "wd", some 0, 1⟩ ⟨1, 11, "wd", some 0, 0⟩
    (by decide) (by decide) rfl (by decide) rfl (by decide)

/-- Claim C5: every successful resolution marks exactly one of primary_used
and backup_used. -/
theorem usage_flags_exclusive (t : TournamentRow) (rs : List ResultRow)
    (p p' : PickRow) (u : UsageRow) (h : resolve_pick t rs p = .ok (p', u)) :
    (p'.primary_used = true ∧ p'.backup_used = false) ∨
      (p'.primary_used = false ∧ p'.backup_used = true) := by
  unfold resolve_pick at h
  repeat' split at h
  all_goals
    first
      | exact Except.noConfusion h
      | (simp only [Except.ok.injEq, Prod.mk.injEq] at h
         obtain ⟨rfl, rfl⟩ := h
         simp)

/-- Witness for C5 at a concrete successful resolution. -/
theorem usage_flags_exclusive_witness :
    ((⟨5, 7, 1, 10, 11, some 10, some 500, true, false⟩ :
        PickRow).primary_used = true ∧
      (⟨5, 7, 1, 10, 11, some 10, some 500, true, false⟩ :
        PickRow).backup_used = false) ∨
      ((⟨5, 7, 1, 10, 11, some 10, some 500, true, false⟩ :
        PickRow).primary_used = false ∧
      (⟨5, 7, 1, 10, 11, some 10, some 500, true, false⟩ :
        PickRow).backup_used = true) :=
  usage_flags_exclusive ⟨1, 2026, false⟩ [⟨1, 10, "complete", some 500, 4⟩]
    ⟨5, 7, 1, 10, 11, none, none, false, false⟩
    ⟨5, 7, 1, 10, 11, some 10, some 500, true, false⟩ ⟨7, 10, 2026⟩ rfl

/-- Claim C4: for a non-team event, a successful resolution activates the
backup exactly when the primary withdrew before completing round 2 while
the backup did not; then the points are the backup earnings.  When the
primary is not an early withdrawal (including a withdrawal with two or
more completed rounds), the primary stays active with its own recorded
earnings. -/
theorem substitution_trigger (t : TournamentRow) (rs : List ResultRow)
    (p p' : PickRow) (u : UsageRow) (rp : ResultRow)
    (hteam : t.is_team_event = false)
    (hne : p.primary_player_id ≠ p.backup_player_id)
    (hp : findResult rs p.tournament_id p.primary_player_id = some rp)
    (h : resolve_pick t rs p = .ok (p', u)) :
    (p'.active_player_id = some p.backup_player_id ↔
      (wd_before_round_2_complete rp = true ∧
        backupWdEarly (findResult rs p.tournament_id p.backup_player_id) = false))
    ∧ (∀ rb : ResultRow,
        findResult rs p.tournament_id p.backup_player_id = some rb →
        wd_before_round_2_complete rp = true →
        wd_before_round_2_complete rb = false →
        p'.points_earned = rb.earnings)
    ∧ (wd_before_round_2_complete rp = false →
        p'.active_player_id = some p.primary_player_id ∧
          p'.points_earned = rp.earnings) := by
  unfold resolve_pick at h
  rw [hp] at h
  unfold wd_before_round_2_complete
  repeat' split at h
  all_goals
    first
      | exact Except.noConfusion h
      | (simp only [Except.ok.injEq, Prod.mk.injEq] at h
         obtain ⟨rfl, rfl⟩ := h
         simp_all [backupWdEarly, hteam, hne]
         try (intros
              simp_all [backupWdEarly])
         try omega)

/-- Witness for C4: primary withdrew after one round, backup finished with
15000 in earnings, non-team event. -/
theorem substitution_trigger_witness :
    ((⟨5, 7, 1, 10, 11, some 11, some 15000, false, true⟩ :
        PickRow).active_player_id = some 11 ↔
      (wd_before_round_2_complete ⟨1, 10, "wd", some 0, 1⟩ = true ∧
        backupWdEarly (findResult
          [⟨1, 10, "wd", some 0, 1⟩, ⟨1, 11, "complete", some 15000, 4⟩]
          1 11) = false))
    ∧ (∀ rb : ResultRow,
        findResult
          [⟨1, 10, "wd", some 0, 1⟩, ⟨1, 11, "complete", some 15000, 4⟩]
          1 11 = some rb →
        wd_before_round_2_complete ⟨1, 10, "wd", some 0, 1⟩ = true →
        wd_before_round_2_complete rb = false →
        (⟨5, 7, 1, 10, 11, some 11, some 15000, false, true⟩ :
          PickRow).points_earned = rb.earnings)
    ∧ (wd_before_round_2_complete ⟨1, 10, "wd", some 0, 1⟩ = false →
        (⟨5, 7, 1, 10, 11, some 11, some 15000, false, true⟩ :
          PickRow).active_player_id = some 10 ∧
        (⟨5, 7, 1, 10, 11, some 11, some 15000, false, true⟩ :
          PickRow).points_earned = (⟨1, 10, "wd", some 0, 1⟩ :
            ResultRow).earnings) :=
  substitution_trigger ⟨1, 2026, false⟩
    [⟨1, 10, "wd", some 0, 1⟩, ⟨1, 11, "complete", some 15000, 4⟩]
    ⟨5, 7, 1, 10, 11, none, none, false, false⟩
    ⟨5, 7, 1, 10, 11, some 11, some 15000, false, true⟩ ⟨7, 11, 2026⟩
    ⟨1, 10, "wd", some 0, 1⟩ rfl (by decide) rfl rfl

/-- Claim C6: for a team event, whenever resolution awards the earnings of
a golfer (every successful branch except the double early withdrawal),
the recorded points are those earnings halved with floor division. -/
theorem team_event_halving (t : TournamentRow) (rs : List ResultRow)
    (p p' : PickRow) (u : UsageRow) (rp : ResultRow)
    (hteam : t.is_team_event = true)
    (hp : findResult rs p.tournament_id p.primary_player_id = some rp)
    (h : resolve_pick t rs p = .ok (p', u))
    (hnd : ¬(wd_before_round_2_complete rp = true ∧
        backupWdEarly (findResult rs p.tournament_id p.backup_player_id) = true)) :
    (wd_before_round_2_complete rp = false →
      ∀ e : Int, rp.earnings = some e → p'.points_earned = some (Int.fdiv e 2))
    ∧ (∀ (rb : ResultRow) (e : Int),
        findResult rs p.tournament_id p.backup_player_id = some rb →
        wd_before_round_2_complete rp = true → rb.earnings = some e →
        p'.points_earned = some (Int.fdiv e 2)) := by
  unfold resolve_pick at h
  rw [hp] at h
  unfold wd_before_round_2_complete at hnd ⊢
  repeat' split at h
  all_goals
    first
      | exact Except.noConfusion h
      | (simp only [Except.ok.injEq, Prod.mk.injEq] at h
         obtain ⟨rfl, rfl⟩ := h
         simp_all [backupWdEarly, hteam]
         try (intros
              simp_all [backupWdEarly])
         try omega)

/-- Witness for C6: team event, primary finished with 15000 in earnings,
points are 15000 // 2 = 7500. -/
theorem team_event_halving_witness :
    (⟨5, 7, 1, 10, 11, some 10, some 7500, true, false⟩ :
      PickRow).points_earned = some 7500 := by
  have hmain := team_event_halving ⟨1, 2026, true⟩
    [⟨1, 10, "complete", some 15000, 4⟩]
    ⟨5, 7, 1, 10, 11, none, none, false, false⟩
    ⟨5, 7, 1, 10, 11, some 10, some 7500, true, false⟩ ⟨7, 10, 2026⟩
    ⟨1, 10, "complete", some 15000, 4⟩ rfl rfl rfl (by decide)
  have h15 := hmain.1 (by decide) 15000 rfl
  exact h15

/-- Claim C2: with no result row for the primary, resolve_pick raises (never
awards zero points), the batch leaves that pick and the usage table
exactly as they were, and once a usable primary result row exists a later
attempt on the same untouched state succeeds. -/
theorem missing_result_defer (t : TournamentRow) (rs : List ResultRow)
    (us : List UsageRow) (p : PickRow)
    (h : findResult rs p.tournament_id p.primary_player_id = none) :
    resolve_pick t rs p = .error "Missing tournament result for primary player"
    ∧ process_tournament_results t rs us [p] = ⟨us, [p], 0, []⟩
    ∧ (∀ (rs2 : List ResultRow) (rp : ResultRow) (e : Int),
        findResult rs2 p.tournament_id p.primary_player_id = some rp →
        wd_before_round_2_complete rp = false →
        rp.earnings = some e →
        (stepPick t rs2 us p).processed = true) := by
  have h1 : resolve_pick t rs p =
      .error "Missing tournament result for primary player" := by
    unfold resolve_pick
    rw [h]
  refine ⟨h1, ?_, ?_⟩
  · simp [process_tournament_results, batchStep, stepPick, h1]
  · intro rs2 rp e hp2 hwd he
    unfold wd_before_round_2_complete at hwd
    unfold stepPick resolve_pick
    rw [hp2]
    simp [hwd, he]

/-- Witness for C2: empty result table, then the primary result appears. -/
theorem missing_result_defer_witness :
    resolve_pick ⟨1, 2026, false⟩ []
        ⟨5, 7, 1, 10, 11, none, none, false, false⟩ =
      .error "Missing tournament result for primary player"
    ∧ process_tournament_results ⟨1, 2026, false⟩ [] [⟨7, 9, 2026⟩]
        [⟨5, 7, 1, 10, 11, none, none, false, false⟩] =
      ⟨[⟨7, 9, 2026⟩], [⟨5, 7, 1, 10, 11, none, none, false, false⟩], 0, []⟩
    ∧ (∀ (rs2 : List ResultRow) (rp : ResultRow) (e : Int),
        findResult rs2 1 10 = some rp →
        wd_before_round_2_complete rp = false →
        rp.earnings = some e →
        (stepPick ⟨1, 2026, false⟩ rs2 [⟨7, 9, 2026⟩]
          ⟨5, 7, 1, 10, 11, none, none, false, false⟩).processed = true) :=
  missing_result_defer ⟨1, 2026, false⟩ [] [⟨7, 9, 2026⟩]
    ⟨5, 7, 1, 10, 11, none, none, false, false⟩ rfl

/-- The usage row of a successful resolution names the picks user, the
tournament season and the player recorded as active. -/
theorem resolve_pick_usage_fields (t : TournamentRow) (rs : List ResultRow)
    (p p' : PickRow) (u : UsageRow) (h : resolve_pick t rs p = .ok (p', u)) :
    u.user_id = p.user_id ∧ u.season_year = t.season_year ∧
      p'.active_player_id = some u.player_id := by
  unfold resolve_pick at h
  repeat' split at h
  all_goals
    first
      | exact Except.noConfusion h
      | (simp only [Except.ok.injEq, Prod.mk.injEq] at h
         obtain ⟨rfl, rfl⟩ := h
         simp)

/-- A successful stepPick commits the delete-then-insert of the usage
table and the resolved pick. -/
theorem stepPick_ok (t : TournamentRow) (rs : List ResultRow)
    (us : List UsageRow) (p p' : PickRow) (u : UsageRow)
    (h : resolve_pick t rs p = .ok (p', u)) :
    stepPick t rs us p =
      ⟨us.filter (fun w => !usageDeleteHits t p w) ++ [u], p', true⟩ := by
  unfold stepPick
  rw [h]

/-- The delete predicate only reads fields that resolution preserves. -/
theorem usageDeleteHits_resolved (t : TournamentRow) (rs : List ResultRow)
    (p p' : PickRow) (u : UsageRow) (h : resolve_pick t rs p = .ok (p', u))
    (w : UsageRow) : usageDeleteHits t p' w = usageDeleteHits t p w := by
  have hs := resolve_pick_shape t rs p p' u h
  rw [hs]
  simp [usageDeleteHits]

/-- Once a pick has been stepped successfully, stepping it again over the
committed state reproduces that state exactly. -/
theorem stepPick_fixpoint (t : TournamentRow) (rs : List ResultRow)
    (us : List UsageRow) (p p' : PickRow) (u : UsageRow)
    (h : resolve_pick t rs p = .ok (p', u)) :
    stepPick t rs (us.filter (fun w => !usageDeleteHits t p w) ++ [u]) p' =
      ⟨us.filter (fun w => !usageDeleteHits t p w) ++ [u], p', true⟩ := by
  have hid := resolve_pick_idem t rs p p' u h
  rw [stepPick_ok t rs _ p' p' u hid]
  have hw := usageDeleteHits_resolved t rs p p' u h
  have hu := resolve_pick_usage_hits t rs p p' u h
  simp [hw, List.filter_append, List.filter_filter, hu]

/-- The batch over a single pick is one stepPick. -/
theorem batch_single (t : TournamentRow) (rs : List ResultRow)
    (us : List UsageRow) (p : PickRow) :
    process_tournament_results t rs us [p] =
      ⟨(stepPick t rs us p).usages, [(stepPick t rs us p).pick],
        if (stepPick t rs us p).processed then 1 else 0, []⟩ := by
  unfold process_tournament_results batchStep
  simp only [List.foldl_cons, List.foldl_nil]
  split <;> simp_all

/-- Claim C1: running the batch over a resolvable pick N times (N at least
1) with unchanged results commits the same state as running it once, the
pick ends up exactly as a single resolution leaves it, and exactly one
season usage row for (the picks user, the active player, the tournament
season) remains. -/
theorem resolution_idempotent (t : TournamentRow) (rs : List ResultRow)
    (us : List UsageRow) (p p' : PickRow) (u : UsageRow) (N : Nat)
    (hN : 1 ≤ N) (h : resolve_pick t rs p = .ok (p', u)) :
    runBatchN t rs N us [p] = runBatchN t rs 1 us [p]
    ∧ (runBatchN t rs N us [p]).2 = [p']
    ∧ (runBatchN t rs N us [p]).1.countP (fun w => w == u) = 1
    ∧ u.user_id = p.user_id ∧ u.season_year = t.season_year ∧
      p'.active_player_id = some u.player_id := by
  obtain ⟨m, rfl⟩ : ∃ m, N = m + 1 := ⟨N - 1, by omega⟩
  have hstep := stepPick_ok t rs us p p' u h
  have hbatch1 : process_tournament_results t rs us [p] =
      ⟨us.filter (fun w => !usageDeleteHits t p w) ++ [u], [p'], 1, []⟩ := by
    rw [batch_single, hstep]
    rfl
  have hfix : ∀ n, runBatchN t rs n
      (us.filter (fun w => !usageDeleteHits t p w) ++ [u]) [p'] =
      (us.filter (fun w => !usageDeleteHits t p w) ++ [u], [p']) := by
    intro n
    induction n with
    | zero => rfl
    | succ k ih =>
      have hb2 : process_tournament_results t rs
          (us.filter (fun w => !usageDeleteHits t p w) ++ [u]) [p'] =
          ⟨us.filter (fun w => !usageDeleteHits t p w) ++ [u], [p'], 1, []⟩ := by
        rw [batch_single, stepPick_fixpoint t rs us p p' u h]
        rfl
      show runBatchN t rs k _ _ = _
      rw [hb2]
      exact ih
  have hrunN : runBatchN t rs (m + 1) us [p] =
      (us.filter (fun w => !usageDeleteHits t p w) ++ [u], [p']) := by
    show runBatchN t rs m _ _ = _
    rw [hbatch1]
    exact hfix m
  have hrun1 : runBatchN t rs 1 us [p] =
      (us.filter (fun w => !usageDeleteHits t p w) ++ [u], [p']) := by
    show runBatchN t rs 0 _ _ = _
    rw [hbatch1]
    rfl
  have hcount : (us.filter (fun w => !usageDeleteHits t p w) ++ [u]).countP
      (fun w => w == u) = 1 := by
    rw [List.countP_append]
    have h0 : (us.filter (fun w => !usageDeleteHits t p w)).countP
        (fun w => w == u) = 0 := by
      rw [List.countP_eq_zero]
      intro a ha hbeq
      have ha2 := (List.mem_filter.mp ha).2
      have hau : a = u := by simpa using hbeq
      rw [hau, resolve_pick_usage_hits t rs p p' u h] at ha2
      simp at ha2
    rw [h0]
    simp
  obtain ⟨hf1, hf2, hf3⟩ := resolve_pick_usage_fields t rs p p' u h
  refine ⟨hrunN.trans hrun1.symm, ?_, ?_, hf1, hf2, hf3⟩
  · rw [hrunN]
  · rw [hrunN]
    exact hcount

/-- Witness for C1: two batch runs over one concrete pick, starting from a
usage table that already holds a stale row for the primary player. -/
theorem resolution_idempotent_witness :
    runBatchN ⟨1, 2026, false⟩ [⟨1, 10, "complete", some 500, 4⟩] 2
        [⟨7, 10, 2026⟩, ⟨8, 10, 2026⟩] [⟨1, 7, 1, 10, 11, none, none, false, false⟩] =
      runBatchN ⟨1, 2026, false⟩ [⟨1, 10, "complete", some 500, 4⟩] 1
        [⟨7, 10, 2026⟩, ⟨8, 10, 2026⟩] [⟨1, 7, 1, 10, 11, none, none, false, false⟩]
    ∧ (runBatchN ⟨1, 2026, false⟩ [⟨1, 10, "complete", some 500, 4⟩] 2
        [⟨7, 10, 2026⟩, ⟨8, 10, 2026⟩]
        [⟨1, 7, 1, 10, 11, none, none, false, false⟩]).2 =
      [⟨1, 7, 1, 10, 11, some 10, some 500, true, false⟩]
    ∧ (runBatchN ⟨1, 2026, false⟩ [⟨1, 10, "complete", some 500, 4⟩] 2
        [⟨7, 10, 2026⟩, ⟨8, 10, 2026⟩]
        [⟨1, 7, 1, 10, 11, none, none, false, false⟩]).1.countP
        (fun w => w == (⟨7, 10, 2026⟩ : UsageRow)) = 1
    ∧ (⟨7, 10, 2026⟩ : UsageRow).user_id =
        (⟨1, 7, 1, 10, 11, none, none, false, false⟩ : PickRow).user_id
    ∧ (⟨7, 10, 2026⟩ : UsageRow).season_year =
        (⟨1, 2026, false⟩ : TournamentRow).season_year
    ∧ (⟨1, 7, 1, 10, 11, some 10, some 500, true, false⟩ :
        PickRow).active_player_id = some (⟨7, 10, 2026⟩ : UsageRow).player_id :=
  resolution_idempotent ⟨1, 2026, false⟩ [⟨1, 10, "complete", some 500, 4⟩]
    [⟨7, 10, 2026⟩, ⟨8, 10, 2026⟩] ⟨1, 7, 1, 10, 11, none, none, false, false⟩
    ⟨1, 7, 1, 10, 11, some 10, some 500, true, false⟩ ⟨7, 10, 2026⟩ 2
    (by decide) rfl

/-- Whether resolve_pick succeeds on a pick, as a Boolean. -/
def resolveOk (t : TournamentRow) (rs : List ResultRow) (p : PickRow) : Bool :=
  match resolve_pick t rs p with
  | .ok _ => true
  | .error _ => false

/-- The pick row the batch commits for one input pick: the resolved row on
success, the untouched row on failure. -/
def stepOutcome (t : TournamentRow) (rs : List ResultRow) (p : PickRow) : PickRow :=
  match resolve_pick t rs p with
  | .ok (p', _) => p'
  | .error _ => p

/-- Unrolling the batch fold: picks are committed one by one, the count
tracks the successes, and skipped is never extended. -/
theorem batch_foldl (t : TournamentRow) (rs : List ResultRow)
    (picks : List PickRow) (acc : BatchOut) :
    picks.foldl (batchStep t rs) acc =
      ⟨picks.foldl (fun us q => (stepPick t rs us q).usages) acc.usages,
       acc.picks ++ picks.map (stepOutcome t rs),
       acc.processed + picks.countP (resolveOk t rs),
       acc.skipped⟩ := by
  induction picks generalizing acc with
  | nil => simp
  | cons q qs ih =>
    rw [List.foldl_cons, ih]
    cases hres : resolve_pick t rs q with
    | ok out =>
      obtain ⟨p', u⟩ := out
      simp [batchStep, stepPick, stepOutcome, resolveOk, hres, List.countP_cons]
      omega
    | error msg =>
      simp [batchStep, stepPick, stepOutcome, resolveOk, hres, List.countP_cons]

/-- Claim C7 (amended): every pick is processed independently inside the
batch; a failing pick is committed unchanged while the successes stand,
and the return value carries the count of resolved picks but an always
empty skipped list (failures are only logged, their ids are not returned). -/
theorem batch_isolated_reporting (t : TournamentRow) (rs : List ResultRow)
    (us : List UsageRow) (picks : List PickRow) :
    (process_tournament_results t rs us picks).picks =
      picks.map (stepOutcome t rs)
    ∧ (process_tournament_results t rs us picks).processed =
      picks.countP (resolveOk t rs)
    ∧ (process_tournament_results t rs us picks).skipped = [] := by
  unfold process_tournament_results
  rw [batch_foldl]
  simp

/-- Counterexample to claim C7 as stated: pick 1 lacks a primary result,
the batch leaves it unresolved (so it was skipped) without aborting the
other pick, yet the returned skipped list is empty instead of holding
id 1. -/
theorem batch_skipped_not_reported :
    resolve_pick ⟨1, 2026, false⟩ [⟨1, 10, "complete", some 500, 4⟩]
        ⟨1, 8, 1, 12, 13, none, none, false, false⟩ =
      .error "Missing tournament result for primary player"
    ∧ process_tournament_results ⟨1, 2026, false⟩
        [⟨1, 10, "complete", some 500, 4⟩] []
        [⟨1, 8, 1, 12, 13, none, none, false, false⟩,
         ⟨2, 7, 1, 10, 11, none, none, false, false⟩] =
      ⟨[⟨7, 10, 2026⟩],
       [⟨1, 8, 1, 12, 13, none, none, false, false⟩,
        ⟨2, 7, 1, 10, 11, some 10, some 500, true, false⟩], 1, []⟩ :=
  ⟨rfl, rfl⟩

/-- Claim C8 (amended): the recomputed total is the sum of points_earned
over the resolved picks of complete tournaments, across every season. -/
theorem standings_total (ps : List StandPick) :
    calculate_total_points ps = (ps.map resolvedCompletePoints).sum := by
  have key : ∀ (l : List StandPick) (a : Int),
      l.foldl (fun total p =>
        if p.tournament_status == "complete" && pyTruthy p.points_earned then
          total + p.points_earned.getD 0
        else total) a = a + (l.map resolvedCompletePoints).sum := by
    intro l
    induction l with
    | nil => intro a; simp
    | cons q qs ih =>
      intro a
      rw [List.foldl_cons, ih]
      by_cases hs : q.tournament_status = "complete"
      · cases hq : q.points_earned with
        | none => simp [hs, hq, pyTruthy, resolvedCompletePoints]
        | some v =>
          by_cases hv : v = 0
          · simp [hs, hq, hv, pyTruthy, resolvedCompletePoints]
          · simp [hs, hq, hv, pyTruthy, resolvedCompletePoints]
            omega
      · simp [hs, pyTruthy, resolvedCompletePoints]
  unfold calculate_total_points
  rw [key]
  simp

/-- One contestants picks over two seasons, both resolved in complete
tournaments. -/
def twoSeasonPicks : List StandPick :=
  [⟨2025, "complete", some 100⟩, ⟨2026, "complete", some 50⟩]

/-- Counterexample to claim C8 as stated: the code sums across seasons, so
the stored total (150) matches the per-season sum of neither season. -/
theorem standings_ignore_season :
    calculate_total_points twoSeasonPicks = 150
    ∧ seasonTotalSpec 2025 twoSeasonPicks = 100
    ∧ seasonTotalSpec 2026 twoSeasonPicks = 50
    ∧ calculate_total_points twoSeasonPicks ≠ seasonTotalSpec 2025 twoSeasonPicks
    ∧ calculate_total_points twoSeasonPicks ≠ seasonTotalSpec 2026 twoSeasonPicks := by
  decide

/-- statusRank never exceeds the final phase. -/
theorem statusRank_le_two (s : String) : statusRank s ≤ 2 := by
  unfold statusRank
  split <;> omega

/-- A status other than complete ranks at most active. -/
theorem statusRank_le_one (s : String) (h : s ≠ "complete") :
    statusRank s ≤ 1 := by
  unfold statusRank
  split <;> simp_all

/-- A status other than complete and active ranks as upcoming. -/
theorem statusRank_eq_zero (s : String) (h2 : s ≠ "complete")
    (h1 : s ≠ "active") : statusRank s = 0 := by
  unfold statusRank
  split <;> simp_all

/-- The invariant carried along nondecreasing recompute times: an active
status was set no earlier than the start date. -/
def TimeConsistent (t : TournamentClock) (m : Int) : Prop :=
  t.status = "active" → t.start_date ≤ m

/-- The update never touches the start date. -/
theorem update_status_start (t : TournamentClock) (now : Int) :
    (update_status_from_time t now).start_date = t.start_date := by
  unfold update_status_from_time
  repeat' split
  all_goals rfl

/-- One recomputation at a later time never lowers the phase. -/
theorem update_status_rank_mono (t : TournamentClock) (m now : Int)
    (hc : TimeConsistent t m) (hm : m ≤ now) :
    statusRank t.status ≤ statusRank (update_status_from_time t now).status := by
  unfold update_status_from_time
  by_cases h2 : t.status = "complete"
  · simp [h2]
  · by_cases hend : t.end_date ≤ now
    · simpa [h2, hend, statusRank] using statusRank_le_two t.status
    · by_cases hstart : t.start_date ≤ now
      · simpa [h2, hend, hstart, statusRank] using statusRank_le_one t.status h2
      · have h1 : t.status ≠ "active" := by
          intro ha
          exact hstart (le_trans (hc ha) hm)
        by_cases hdl : t.pick_deadline.getD t.start_date ≤ now
        · simp [h2, hend, hstart, hdl, statusRank_eq_zero t.status h2 h1]
        · simp [h2, hend, hstart, hdl]

/-- The invariant is preserved by recomputation at a later time. -/
theorem update_status_consistent (t : TournamentClock) (m now now2 : Int)
    (hc : TimeConsistent t m) (hm : m ≤ now) (hn : now ≤ now2) :
    TimeConsistent (update_status_from_time t now) now2 := by
  intro ha
  rw [update_status_start]
  unfold update_status_from_time at ha
  by_cases h2 : t.status = "complete"
  · simp [h2] at ha
  · by_cases hend : t.end_date ≤ now
    · simp [h2, hend] at ha
    · by_cases hstart : t.start_date ≤ now
      · exact le_trans hstart hn
      · by_cases hdl : t.pick_deadline.getD t.start_date ≤ now
        · simp [h2, hend, hstart, hdl] at ha
        · simp [h2, hend, hstart, hdl] at ha
          exact le_trans (le_trans (hc ha) hm) hn

/-- The head of a scanl is its seed. -/
theorem scanl_head (f : TournamentClock → Int → TournamentClock)
    (b : TournamentClock) (l : List Int) :
    (List.scanl f b l).head? = some b := by
  cases l <;> rfl

/-- Along a chain of nondecreasing recompute times the trajectory of
statuses is rank-monotone. -/
theorem scanl_rank_chain (ts : List Int) (t : TournamentClock) (m : Int)
    (hc : TimeConsistent t m) (hm : List.Chain (· ≤ ·) m ts) :
    List.Chain' (fun a b => statusRank a.status ≤ statusRank b.status)
      (List.scanl update_status_from_time t ts) := by
  induction ts generalizing t m with
  | nil => simp
  | cons a l ih =>
    cases hm with
    | cons hma hml =>
      rw [List.scanl_cons]
      refine List.chain'_cons'.2 ⟨?_, ih (update_status_from_time t a) a
        (update_status_consistent t m a a hc hma le_rfl) hml⟩
      intro y hy
      simp only [List.append_eq, List.nil_append, scanl_head,
        Option.mem_def, Option.some.injEq] at hy
      subst hy
      exact update_status_rank_mono t m a hc hma

/-- Claim C9: recomputation makes the phase complete once now has reached
the end date and active once now has reached the start date (while not
yet complete); and starting from the stored default status, a sequence of
recomputations at nondecreasing current times never moves the phase
backwards. -/
theorem lifecycle_phase (t : TournamentClock) (now : Int) (ts : List Int)
    (hchain : List.Chain' (· ≤ ·) ts) :
    (t.end_date ≤ now → (update_status_from_time t now).status = "complete")
    ∧ (t.status ≠ "complete" → t.start_date ≤ now → now < t.end_date →
        (update_status_from_time t now).status = "active")
    ∧ (t.status = "upcoming" →
        List.Chain' (fun a b => statusRank a.status ≤ statusRank b.status)
          (List.scanl update_status_from_time t ts)) := by
  refine ⟨?_, ?_, ?_⟩
  · intro hend
    unfold update_status_from_time
    by_cases h2 : t.status = "complete" <;> simp [h2, hend]
  · intro h2 hstart hlt
    unfold update_status_from_time
    simp [h2, hstart, not_le.2 hlt]
  · intro hup
    cases ts with
    | nil => simp
    | cons a l =>
      refine scanl_rank_chain (a :: l) t a ?_ (List.Chain.cons le_rfl hchain)
      intro ha
      rw [hup] at ha
      simp at ha

/-- Witness for C9: a tournament opening at time 10 and ending at time 20,
recomputed at times 4, 6, 12 and 25. -/
theorem lifecycle_phase_witness :
    ((⟨10, 20, some 5, "upcoming"⟩ : TournamentClock).end_date ≤ 25 →
      (update_status_from_time ⟨10, 20, some 5, "upcoming"⟩ 25).status =
        "complete")
    ∧ ((⟨10, 20, some 5, "upcoming"⟩ : TournamentClock).status ≠ "complete" →
        (⟨10, 20, some 5, "upcoming"⟩ : TournamentClock).start_date ≤ 25 →
        (25 : Int) < (⟨10, 20, some 5, "upcoming"⟩ :
          TournamentClock).end_date →
        (update_status_from_time ⟨10, 20, some 5, "upcoming"⟩ 25).status =
          "active")
    ∧ ((⟨10, 20, some 5, "upcoming"⟩ : TournamentClock).status = "upcoming" →
        List.Chain' (fun a b => statusRank a.status ≤ statusRank b.status)
          (List.scanl update_status_from_time
            ⟨10, 20, some 5, "upcoming"⟩ [4, 6, 12, 25])) :=
  lifecycle_phase ⟨10, 20, some 5, "upcoming"⟩ 25 [4, 6, 12, 25]
    (by norm_num [List.chain'_cons, List.chain'_singleton])

/-! ## Projected payout lemmas -/

/-- A lookup over a table whose keys are all positive misses any
nonpositive key. -/
theorem lookup_none_of_keys_pos (pos : Int) (l : List (Int × Nat))
    (hk : ∀ kv ∈ l, 1 ≤ kv.1) (h : pos ≤ 0) : l.lookup pos = none := by
  induction l with
  | nil => rfl
  | cons kv l ih =>
    obtain ⟨k, v⟩ := kv
    have h1 : 1 ≤ k := hk (k, v) (by simp)
    have hne : (pos == k) = false := by
      simp only [beq_eq_false_iff_ne, ne_eq]
      omega
    simp only [List.lookup, hne]
    exact ih (fun x hx => hk x (by simp [hx]))

/-- The dict .get default: positions at or below zero pay nothing. -/
theorem payoutNum_nonpos (pos : Int) (h : pos ≤ 0) : payoutNum pos = 0 := by
  unfold payoutNum
  rw [lookup_none_of_keys_pos pos PAYOUT_TABLE (by decide) h]
  rfl

/-- The per-rank percentage of the source loop agrees everywhere with the
spec-side payout percentage. -/
theorem loopPct_eq_payoutPctSpec (pos : Int) : loopPct pos = payoutPctSpec pos := by
  unfold loopPct payoutPctSpec
  by_cases h65 : pos ≤ 65
  · by_cases h1 : 1 ≤ pos
    · simp [h65, h1]
    · have h0 : pos ≤ 0 := by omega
      simp [h65, payoutNum_nonpos pos h0,
        show ¬(1 ≤ pos ∧ pos ≤ 65) from by omega,
        show ¬(66 ≤ pos ∧ pos ≤ 80) from by omega]
  · by_cases h80 : pos ≤ 80
    · have hple : (pos : ℚ) ≤ 80 := by exact_mod_cast h80
      have hnn : (0 : ℚ) ≤ 213 / 100000 - ((pos : ℚ) - 66) * 2 / 100000 := by
        linarith
      simp [h65, h80, show ¬(1 ≤ pos ∧ pos ≤ 65) from by omega,
        show 66 ≤ pos ∧ pos ≤ 80 from ⟨by omega, h80⟩, max_eq_right hnn]
    · simp [h65, h80, show ¬(1 ≤ pos ∧ pos ≤ 65) from by omega,
        show ¬(66 ≤ pos ∧ pos ≤ 80) from by omega]

/-- Non-paying markers and the empty string never parse as a position. -/
theorem parse_marker_none (s : String)
    (h : s = "" ∨ pyUpper s = "CUT" ∨ pyUpper s = "WD" ∨ pyUpper s = "DQ" ∨
      pyUpper s = "-") : parsePosition s = none := by
  simp only [parsePosition]
  rcases h with h|h|h|h|h
  · subst h; decide
  all_goals rw [h]; decide

/-- Payout percentages are never negative. -/
theorem payoutPctSpec_nonneg (r : Int) : 0 ≤ payoutPctSpec r := by
  unfold payoutPctSpec
  split
  · positivity
  · split
    · next hc =>
      have h80 : (r : ℚ) ≤ 80 := by exact_mod_cast hc.2
      linarith
    · exact le_refl 0

/-- The tie loop accumulates exactly the sum of the spec-side payout
percentages over the tied ranks. -/
theorem payout_fold_sum (R : Int) (n : Nat) :
    (List.range n).foldl (fun acc (i : Nat) => acc + loopPct (R + (i : Int))) 0 =
      ∑ i in Finset.range n, payoutPctSpec (R + (i : Int)) := by
  induction n with
  | zero => simp
  | succ k ih =>
    rw [List.range_succ, List.foldl_append, ih]
    simp [Finset.sum_range_succ, loopPct_eq_payoutPctSpec]

/-- Python int() is the floor on nonnegative values. -/
theorem pyInt_eq_floor (x : ℚ) (h : 0 ≤ x) : pyInt x = ⌊x⌋ := by
  simp [pyInt, h]

/-- Claim C10: projected earnings are 0 for non-paying markers, for
unparseable position strings and for positions beyond 80; otherwise, for
a parsed rank R whose exact position string is shared by N leaderboard
entries, they are the floor of purse times the mean of the payout
percentages of ranks R..R+N-1 (fixed table for 1-65, linear decay for
66-80). -/
theorem projected_payout (position_str : String) (purse : Int)
    (all_positions : List String) (hpurse : 0 ≤ purse) :
    ((position_str = "" ∨ pyUpper position_str = "CUT" ∨
        pyUpper position_str = "WD" ∨ pyUpper position_str = "DQ" ∨
        pyUpper position_str = "-") →
      calculate_projected_earnings position_str purse all_positions = 0)
    ∧ (parsePosition position_str = none →
        calculate_projected_earnings position_str purse all_positions = 0)
    ∧ (∀ R : Int, parsePosition position_str = some R → 80 < R →
        calculate_projected_earnings position_str purse all_positions = 0)
    ∧ (∀ R : Int, parsePosition position_str = some R → R ≤ 80 →
        0 < tieGroupSize position_str all_positions →
        calculate_projected_earnings position_str purse all_positions =
          ⌊(purse : ℚ) *
            ((∑ i in Finset.range (tieGroupSize position_str all_positions),
              payoutPctSpec (R + (i : Int))) /
              (tieGroupSize position_str all_positions : ℚ))⌋) := by
  refine ⟨?_, ?_, ?_, ?_⟩
  · intro hm
    unfold calculate_projected_earnings
    rcases hm with h|h|h|h|h <;> simp [h]
  · intro hp
    unfold calculate_projected_earnings
    split
    · rfl
    · split
      · rfl
      · rw [hp]
  · intro R hR h80
    unfold calculate_projected_earnings
    split
    · rfl
    · split
      · rfl
      · rw [hR]
        simp [h80]
  · intro R hR hle htie
    have hmb : (position_str == "" || pyUpper position_str == "CUT" ||
        pyUpper position_str == "WD" || pyUpper position_str == "DQ" ||
        pyUpper position_str == "-") = false := by
      by_contra hb
      rw [Bool.not_eq_false] at hb
      simp only [Bool.or_eq_true, beq_iff_eq] at hb
      have hpn := parse_marker_none position_str (by tauto)
      rw [hpn] at hR
      exact Option.noConfusion hR
    rcases eq_or_lt_of_le hpurse with hzero | hpos
    · unfold calculate_projected_earnings
      rw [hmb, ← hzero]
      norm_num
    · have hc0 : tieGroupSize position_str all_positions ≠ 0 := by omega
      unfold calculate_projected_earnings
      rw [hmb, hR]
      simp only [Bool.false_eq_true, if_false]
      rw [if_neg (by omega : ¬purse ≤ 0)]
      rw [if_neg (by omega : ¬R > 80)]
      simp only [hc0, if_false, if_pos htie]
      rw [payout_fold_sum]
      rw [pyInt_eq_floor]
      exact mul_nonneg (by exact_mod_cast le_of_lt hpos)
        (div_nonneg (Finset.sum_nonneg fun i _ => payoutPctSpec_nonneg _)
          (Nat.cast_nonneg _))

/-- Witness for C10: three golfers tied at T2 over a 1,000,000 purse. -/
theorem projected_payout_witness :
    calculate_projected_earnings "T2" 1000000 ["1", "T2", "T2", "T2"] =
      ⌊(1000000 : ℚ) *
        ((∑ i in Finset.range (tieGroupSize "T2" ["1", "T2", "T2", "T2"]),
          payoutPctSpec (2 + (i : Int))) /
          (tieGroupSize "T2" ["1", "T2", "T2", "T2"] : ℚ))⌋ :=
  (projected_payout "T2" 1000000 ["1", "T2", "T2", "T2"] (by decide)).2.2.2
    2 (by decide) (by decide) (by decide)
